import Mathlib

/-!
Verification of the live-transcription session manager
(`websocket.go`, `genai.go`, `speech.go` of owulveryck/live_transcription).

Go strings are modelled as `List Char`; Go byte slices (audio frames) as
`Nat` identifiers; machine state mutated inside `handleWebSocket` is
modelled as explicit state records threaded through pure step functions.
External outcomes (RPC success, client write success, recognition
results) are supplied as explicit environment parameters.
-/

namespace LiveTrans

/-- Go `string`, modelled as a list of characters. -/
abbrev Str := List Char

/-- `strings.ToLower` (ASCII case folding, as used on keyword and format
strings in `websocket.go`). -/
def lowerStr (s : Str) : Str := s.map Char.toLower

/-- `strings.TrimSpace`: drop whitespace from both ends of the string. -/
def trimStr (s : Str) : Str :=
  (s.dropWhile Char.isWhitespace).rdropWhile Char.isWhitespace

/-- A single space, the separator `handleWebSocket` appends after every
final transcription segment (`fullTranscription.WriteString(text + " ")`). -/
def spaceStr : Str := [' ']

theorem dropWhile_self {α : Type} (p : α → Bool) (l : List α) :
    (l.dropWhile p).dropWhile p = l.dropWhile p := by
  induction l with
  | nil => rfl
  | cons a l ih =>
    cases h : p a with
    | true => simpa [List.dropWhile_cons, h] using ih
    | false => simp [List.dropWhile_cons, h]

theorem dropWhile_of_prefix {α : Type} (p : α → Bool) (l t : List α)
    (hl : l.dropWhile p = l) (ht : t <+: l) : t.dropWhile p = t := by
  cases t with
  | nil => rfl
  | cons a t' =>
    obtain ⟨r, hr⟩ := ht
    have hpa : p a = false := by
      by_contra hpa
      have hpa' : p a = true := by
        cases h : p a
        · exact absurd h hpa
        · rfl
      rw [← hr, List.cons_append, List.dropWhile_cons, hpa', if_pos rfl] at hl
      have hlen := (List.dropWhile_suffix (l := t' ++ r) p).length_le
      rw [hl] at hlen
      simp [List.length_cons] at hlen
    simp [List.dropWhile_cons, hpa]

theorem trimStr_idem (s : Str) : trimStr (trimStr s) = trimStr s := by
  unfold trimStr
  have h1 : ((s.dropWhile Char.isWhitespace).rdropWhile Char.isWhitespace).dropWhile
      Char.isWhitespace
      = (s.dropWhile Char.isWhitespace).rdropWhile Char.isWhitespace :=
    dropWhile_of_prefix _ _ _ (dropWhile_self _ _) (List.rdropWhile_prefix _ _)
  rw [h1]
  exact List.rdropWhile_idempotent _ _

/-!
### Audio-format mapping (`websocket.go` lines 207-238)

The proto enum `RecognitionConfig_AudioEncoding` of
`google.golang.org/genproto/googleapis/cloud/speech/v1` is modelled by its
numeric values; `audioEncodingValueTable` is the generated
`RecognitionConfig_AudioEncoding_value` name-to-value map.
-/

def encUNSPECIFIED : Nat := 0

def encLINEAR16 : Nat := 1

def encFLAC : Nat := 2

def encMULAW : Nat := 3

def encAMR : Nat := 4

def encAMR_WB : Nat := 5

def encOGG_OPUS : Nat := 6

def encSPEEX : Nat := 7

def encWEBM_OPUS : Nat := 9

/-- `speechpb.RecognitionConfig_AudioEncoding_value`: exact enum-name to
numeric-value map of the v1 Speech API audio encodings. -/
def audioEncodingValueTable : List (Str × Nat) :=
  [ ("ENCODING_UNSPECIFIED".toList, encUNSPECIFIED)
  , ("LINEAR16".toList, encLINEAR16)
  , ("FLAC".toList, encFLAC)
  , ("MULAW".toList, encMULAW)
  , ("AMR".toList, encAMR)
  , ("AMR_WB".toList, encAMR_WB)
  , ("OGG_OPUS".toList, encOGG_OPUS)
  , ("SPEEX_WITH_HEADER_BYTE".toList, encSPEEX)
  , ("WEBM_OPUS".toList, encWEBM_OPUS) ]

/-- The Go map lookup `RecognitionConfig_AudioEncoding_value[format]`
(case-sensitive, exact enum name). -/
def lookupEncodingValue (format : Str) : Option Nat :=
  (audioEncodingValueTable.find? (fun p => p.1 == format)).map Prod.snd

/-- The five lowercase format aliases the encoding switch matches. -/
def lowerFormatKeys : List Str :=
  ["linear16".toList, "ogg_opus".toList, "webm_opus".toList, "flac".toList, "mulaw".toList]

/-- The encoding switch of `handleWebSocket` (`websocket.go` 208-238):
lowercase the client format string, match the five supported aliases,
otherwise fall back to the exact enum-name lookup, and default to
`LINEAR16` when that also fails.  The mapping is total: there is no
error path, so a session is never rejected for an unknown format. -/
def mapAudioFormat (format : Str) : Nat :=
  let fl := lowerStr format
  if fl = "linear16".toList then encLINEAR16
  else if fl = "ogg_opus".toList then encOGG_OPUS
  else if fl = "webm_opus".toList then encWEBM_OPUS
  else if fl = "flac".toList then encFLAC
  else if fl = "mulaw".toList then encMULAW
  else
    match lookupEncodingValue format with
    | some v => v
    | none => encLINEAR16

/-!
### Pending Audio Buffer (`websocket.go` lines 641-648 and 658-665)

Audio frames are modelled by `Nat` identifiers.  Both buffering sites run
`pendingAudioChunks = append(pendingAudioChunks, message)` followed by
`if len(pendingAudioChunks) > 10 { pendingAudioChunks = pendingAudioChunks[1:] }`.
-/

/-- The hard-coded pending-audio-buffer capacity (`> 10` check). -/
def maxPendingChunks : Nat := 10

/-- One buffering operation on `pendingAudioChunks`: append the new frame,
then drop the oldest frame if the buffer now exceeds capacity. -/
def bufferChunk (pending : List Nat) (m : Nat) : List Nat :=
  let appended := pending ++ [m]
  if maxPendingChunks < appended.length then appended.drop 1 else appended

/-!
### Stream controller state and `createStream` (`websocket.go` lines 285-391)

The closure-captured mutable locals of `handleWebSocket`
(`stream`, `streamStartTime`, `pendingAudioChunks`) become a state record.
`streamAge` is the elapsed time since `streamStartTime`; recording
`streamStartTime = time.Now()` resets it to `0`.  `statusMsgs` counts the
"stream_recreated" status notifications handed to the fire-and-forget
writer goroutine.  Environment outcomes of the external calls
(`ctx.Err()`, `client.StreamingRecognize`, the config handshake `Send`,
the per-chunk buffered-frame `Send`, and the status `WriteMessage` whose
error is discarded) are explicit fields of `CreateEnv`.
-/

structure SessState where
  stream : Option Nat
  streamAge : Nat
  pending : List Nat
  statusMsgs : Nat
deriving DecidableEq, Repr

structure CreateEnv where
  ctxCancelled : Bool
  rpcOk : Bool
  handshakeOk : Bool
  flushOk : Nat → Bool
  newStreamId : Nat
  statusWriteOk : Bool

structure CreateResult where
  state : SessState
  ok : Bool
  sentToNewStream : List Nat
  handshakeAttempts : Nat
deriving Repr

/-- `createStream` (`websocket.go` 293-391): close any current stream and
empty the slot, fail fast on a cancelled context, open the upstream RPC,
send the configuration handshake (on failure the slot stays empty and the
error is returned with no inline retry), then record the new stream as
current, reset the age timer, flush the pending buffer FIFO into the new
stream stopping at the first failed chunk, clear the buffer, and emit the
non-blocking "stream_recreated" status message (its write outcome
`statusWriteOk` is never consulted). -/
def createStream (st : SessState) (env : CreateEnv) : CreateResult :=
  let st0 : SessState :=
    { stream := none
      streamAge := st.streamAge
      pending := st.pending
      statusMsgs := st.statusMsgs }
  if env.ctxCancelled then
    { state := st0, ok := false, sentToNewStream := [], handshakeAttempts := 0 }
  else if env.rpcOk = false then
    { state := st0, ok := false, sentToNewStream := [], handshakeAttempts := 0 }
  else if env.handshakeOk = false then
    { state := st0, ok := false, sentToNewStream := [], handshakeAttempts := 1 }
  else
    { state :=
        { stream := some env.newStreamId
          streamAge := 0
          pending := []
          statusMsgs := st0.statusMsgs + 1 }
      ok := true
      sentToNewStream := st0.pending.takeWhile env.flushOk
      handshakeAttempts := 1 }

/-!
### Audio ingestion: the `BinaryMessage` branch (`websocket.go` lines 620-667)
-/

inductive BinaryOutcome : Type
  | sessionContinues
  | sessionTerminates
deriving DecidableEq, Repr

structure BinaryEnv where
  sendOk : Bool
  create : CreateEnv

/-- The session state after a frame is appended to `pendingAudioChunks`
(the stream slot itself is untouched by buffering). -/
def bufferedState (st : SessState) (frame : Nat) : SessState :=
  { stream := st.stream
    streamAge := st.streamAge
    pending := bufferChunk st.pending frame
    statusMsgs := st.statusMsgs }

/-- One `websocket.BinaryMessage` iteration of the client read loop: if a
current stream exists, send the frame; on send failure buffer the frame
(capacity-bounded) and synchronously call `createStream`, and if that
fails the handler returns (`return`), ending the session and closing the
connection; if no stream exists, just buffer the frame and continue. -/
def handleBinaryMessage (st : SessState) (frame : Nat) (env : BinaryEnv) :
    SessState × BinaryOutcome :=
  match st.stream with
  | some _ =>
    if env.sendOk then (st, BinaryOutcome.sessionContinues)
    else
      let r := createStream (bufferedState st frame) env.create
      if r.ok then (r.state, BinaryOutcome.sessionContinues)
      else (r.state, BinaryOutcome.sessionTerminates)
  | none => (bufferedState st frame, BinaryOutcome.sessionContinues)

/-!
### Recognition receive pump (`websocket.go` lines 422-556)

One iteration of the receive goroutine either gets a response from the
current stream (a list of results, or an API error carried in the
response), hits `io.EOF` or a receive error (both answered by
`createStream`, whose failure makes the goroutine return), or finds no
current stream (sleeps 100ms and retries).  `PumpState.cancelled` models
the session context: the pump never cancels it.  Client writes are
indexed by `writeCount`; `wOk n` is the outcome of the n-th
`conn.WriteMessage` of a transcription message.
-/

structure RecogResult where
  alternatives : List Str
  isFinal : Bool
deriving DecidableEq, Repr

inductive RecvEvent : Type
  | results (rs : List RecogResult)
  | apiError
  | eofRecreate (recreateOk : Bool)
  | errRecreate (recreateOk : Bool)
  | noStream
deriving DecidableEq, Repr

structure PumpState where
  transcript : Str
  alive : Bool
  cancelled : Bool
  writeCount : Nat
deriving DecidableEq, Repr

/-- The initial pump state: empty `fullTranscription`, running goroutine,
live session context. -/
def pumpInit : PumpState :=
  { transcript := [], alive := true, cancelled := false, writeCount := 0 }

/-- The `for _, result := range resp.Results` body (`websocket.go`
479-554): skip results without alternatives; otherwise write a
transcription message to the client — on write failure the goroutine
returns immediately (remaining results unprocessed, session context
untouched) — and append `text + " "` to `fullTranscription` when the
result is final. -/
def processResults (wOk : Nat → Bool) : PumpState → List RecogResult → PumpState
  | st, [] => st
  | st, r :: rest =>
    match r.alternatives with
    | [] => processResults wOk st rest
    | t :: _ =>
      if wOk st.writeCount then
        processResults wOk
          { transcript := if r.isFinal then st.transcript ++ t ++ spaceStr else st.transcript
            alive := st.alive
            cancelled := st.cancelled
            writeCount := st.writeCount + 1 } rest
      else
        { transcript := st.transcript
          alive := false
          cancelled := st.cancelled
          writeCount := st.writeCount + 1 }

/-- One iteration of the receive goroutine loop.  `eofRecreate b` /
`errRecreate b` carry whether the inline `createStream` call succeeded;
on failure the goroutine returns (`alive := false`) without touching the
session context. -/
def pumpStep (wOk : Nat → Bool) (st : PumpState) (ev : RecvEvent) : PumpState :=
  if st.alive then
    match ev with
    | RecvEvent.results rs => processResults wOk st rs
    | RecvEvent.apiError => st
    | RecvEvent.eofRecreate b =>
      if b then st
      else { transcript := st.transcript, alive := false
             cancelled := st.cancelled, writeCount := st.writeCount }
    | RecvEvent.errRecreate b =>
      if b then st
      else { transcript := st.transcript, alive := false
             cancelled := st.cancelled, writeCount := st.writeCount }
    | RecvEvent.noStream => st
  else st

/-- The receive goroutine over a whole event sequence. -/
def pumpRun (wOk : Nat → Bool) (st : PumpState) (evs : List RecvEvent) : PumpState :=
  evs.foldl (pumpStep wOk) st

/-- The texts of the final results (with at least one alternative) inside
one response, in order. -/
def resultFinalTexts (rs : List RecogResult) : List Str :=
  rs.filterMap (fun r =>
    match r.alternatives with
    | [] => none
    | t :: _ => if r.isFinal then some t else none)

def eventFinalTexts : RecvEvent → List Str
  | RecvEvent.results rs => resultFinalTexts rs
  | _ => []

/-- All final-result texts delivered by the receive loop over the event
sequence, in delivery order. -/
def finalTexts (evs : List RecvEvent) : List Str :=
  (evs.map eventFinalTexts).flatten

/-- `true` for events whose inline stream recreation (if any) succeeded. -/
def noFailedRecreate : RecvEvent → Bool
  | RecvEvent.eofRecreate b => b
  | RecvEvent.errRecreate b => b
  | _ => true

/-- What the accumulator actually builds: every final text followed by a
single space, concatenated in order. -/
def transcriptOfFinals (texts : List Str) : Str :=
  texts.foldr (fun t acc => t ++ spaceStr ++ acc) []

/-- Formalisation of the spec phrase "the space-joined concatenation of
their texts": the texts interleaved with single spaces (no trailing
separator). -/
def spaceJoined (texts : List Str) : Str :=
  List.intercalate spaceStr texts

/-!
### Summarization (`genai.go` and the summary goroutines of `websocket.go`)
-/

/-- Outcome of the external Vertex AI call chain: either the client or
`GenerateContent` RPC fails, or a response with extracted candidate text
is returned (possibly empty). -/
inductive GenOutcome : Type
  | rpcError
  | content (text : Str)
deriving DecidableEq, Repr

structure GenEnv where
  clientOk : Bool
  outcome : GenOutcome
deriving DecidableEq, Repr

structure GenCall where
  result : Except Str Str
  contacted : Bool
deriving Repr

/-- `generateSummary` (`genai.go` 12-71): an empty full transcript
returns `("", nil)` before any client is created; otherwise the GenAI
client is created and `GenerateContent` is called (`contacted = true`),
an empty extracted text yields the "no content generated" error, and
non-empty text is returned.  The prompt, previous summary and custom
words only shape the request payload and do not influence this control
flow. -/
def generateSummary (fullTranscript : Str) (env : GenEnv) : GenCall :=
  if fullTranscript = [] then
    { result := Except.ok [], contacted := false }
  else if env.clientOk = false then
    { result := Except.error ("error creating GenAI client".toList), contacted := true }
  else
    match env.outcome with
    | GenOutcome.rpcError =>
      { result := Except.error ("error generating content".toList), contacted := true }
    | GenOutcome.content t =>
      if t = [] then
        { result := Except.error ("no content generated".toList), contacted := true }
      else { result := Except.ok t, contacted := true }

structure SummaryTaskResult where
  summaryAfter : Str
  emitted : Bool
  cancelledAfter : Bool
deriving DecidableEq, Repr

/-- The per-final-segment summary goroutine (`websocket.go` 511-550):
trim the transcript snapshot, call `generateSummary`; on error or empty
summary do nothing; on success replace `currentSummary` and write the
summary message — a failed write is only logged.  The session context
(`cancelled`) is never touched. -/
def runIncrementalSummary (rawTranscript prevSummary : Str) (env : GenEnv)
    (writeOk cancelled : Bool) : SummaryTaskResult :=
  let fullTranscript := trimStr rawTranscript
  match (generateSummary fullTranscript env).result with
  | Except.error _ =>
    { summaryAfter := prevSummary, emitted := false, cancelledAfter := cancelled }
  | Except.ok summary =>
    if summary = [] then
      { summaryAfter := prevSummary, emitted := false, cancelledAfter := cancelled }
    else
      { summaryAfter := summary, emitted := writeOk, cancelledAfter := cancelled }

structure EndPromptTaskResult where
  summaryAfter : Str
  emitted : Bool
  contacted : Bool
deriving DecidableEq, Repr

/-- The `end_prompt` summary goroutine body (`websocket.go` 713-798,
after the in-flight counter was incremented): trim the accumulated
transcript and return immediately when it is empty (no generation, no
summary update, no message); otherwise call `generateSummary` with the
combined prompt under an independent 30s context, update the summary on
success, and deliver it best-effort when the connection is still open. -/
def runEndPromptTask (rawTranscript prevSummary : Str) (env : GenEnv)
    (writeOk connOpen : Bool) : EndPromptTaskResult :=
  let fullTranscript := trimStr rawTranscript
  if fullTranscript = [] then
    { summaryAfter := prevSummary, emitted := false, contacted := false }
  else
    let call := generateSummary fullTranscript env
    match call.result with
    | Except.error _ =>
      { summaryAfter := prevSummary, emitted := false, contacted := call.contacted }
    | Except.ok summary =>
      if summary = [] then
        { summaryAfter := prevSummary, emitted := false, contacted := call.contacted }
      else
        { summaryAfter := summary
          emitted := connOpen && writeOk
          contacted := call.contacted }

/-!
### Read-loop termination and drain (`websocket.go` lines 590-617)
-/

/-- The error ending `conn.ReadMessage`: either a websocket close frame
with its close code, or any other transport error. -/
inductive ReadErrorKind : Type
  | closeError (code : Nat)
  | otherError
deriving DecidableEq, Repr

def closeGoingAway : Nat := 1001

def closeAbnormalClosure : Nat := 1006

/-- `websocket.IsUnexpectedCloseError(err, expected...)` of
gorilla/websocket: true exactly for a `*CloseError` whose code is not in
the expected list. -/
def isUnexpectedCloseErr (e : ReadErrorKind) (expected : List Nat) : Bool :=
  match e with
  | ReadErrorKind.closeError code => !(expected.contains code)
  | ReadErrorKind.otherError => false

inductive TeardownBehavior : Type
  | immediate
  | drainWait (timeoutSeconds : Nat)
deriving DecidableEq, Repr

def drainTimeoutSeconds : Nat := 35

/-- The read-loop error branch (`websocket.go` 596-617): when the error
is an unexpected close error (per `IsUnexpectedCloseError` with expected
codes GoingAway and AbnormalClosure) it is only logged and teardown
proceeds at once; otherwise, if `finalSummaryInProgress > 0`, the loop
blocks on `finalSummaryDone` with a 35-second timeout before `cancel()`
and `break`. -/
def onReadLoopError (e : ReadErrorKind) (finalSummaryInProgress : Nat) :
    TeardownBehavior :=
  if isUnexpectedCloseErr e [closeGoingAway, closeAbnormalClosure] then
    TeardownBehavior.immediate
  else if 0 < finalSummaryInProgress then
    TeardownBehavior.drainWait drainTimeoutSeconds
  else TeardownBehavior.immediate

/-!
### Dynamic keywords (`websocket.go` lines 836-883)
-/

/-- `lowerStr (trimStr e)`: the key under which a stored keyword sits in
the `existingKeywords` dedup map. -/
def keywordKey (e : Str) : Str := lowerStr (trimStr e)

/-- The keyword merge loop (`websocket.go` 843-851): for each incoming
word, trim it; skip it when empty or when its lowercase form is already
in the dedup set; otherwise record it in `newKeywordsToAdd`, append it to
`dynamicKeywords`, and mark it in the set. -/
def keywordsGo (seen : List Str) (dyn newAdds : List Str) :
    List Str → List Str × List Str
  | [] => (dyn, newAdds)
  | w :: rest =>
    let t := trimStr w
    if t ≠ [] ∧ lowerStr t ∉ seen then
      keywordsGo (lowerStr t :: seen) (dyn ++ [t]) (newAdds ++ [t]) rest
    else keywordsGo seen dyn newAdds rest

/-- The `keywords` message branch: build the dedup set from the current
`dynamicKeywords`, merge the message words, and return the updated
keyword list together with `newKeywordsToAdd`.  The stream is recreated
iff `newKeywordsToAdd` is non-empty (`websocket.go` 864-883). -/
def processKeywords (dyn words : List Str) : List Str × List Str :=
  keywordsGo (dyn.map keywordKey) dyn [] words

/-- Whether the `keywords` branch triggers a stream recreation. -/
def keywordsTriggerRecreate (dyn words : List Str) : Bool :=
  !(processKeywords dyn words).2.isEmpty

/-! ## Helper lemmas -/

theorem takeWhile_all {α : Type} (p : α → Bool) (l : List α)
    (h : ∀ a ∈ l, p a = true) : l.takeWhile p = l := by
  induction l with
  | nil => rfl
  | cons a l ih =>
    rw [List.takeWhile_cons, h a (List.mem_cons_self a l), if_pos rfl,
      ih (fun b hb => h b (List.mem_cons_of_mem a hb))]

theorem transcriptOfFinals_cons (x : Str) (ts : List Str) :
    transcriptOfFinals (x :: ts) = x ++ spaceStr ++ transcriptOfFinals ts := rfl

theorem transcriptOfFinals_append (a b : List Str) :
    transcriptOfFinals (a ++ b) = transcriptOfFinals a ++ transcriptOfFinals b := by
  induction a with
  | nil => simp [transcriptOfFinals]
  | cons x a ih => simp only [List.cons_append, transcriptOfFinals_cons, ih, List.append_assoc]

theorem transcriptOfFinals_eq_spaceJoined (ts : List Str) (h : ts ≠ []) :
    transcriptOfFinals ts = spaceJoined ts ++ spaceStr := by
  induction ts with
  | nil => cases h rfl
  | cons x ts ih =>
    cases ts with
    | nil => simp [transcriptOfFinals, spaceJoined, List.intercalate]
    | cons y ts' =>
      have ih' := ih (by simp)
      calc transcriptOfFinals (x :: y :: ts')
          = x ++ spaceStr ++ transcriptOfFinals (y :: ts') := by
            simp [transcriptOfFinals]
        _ = x ++ spaceStr ++ (spaceJoined (y :: ts') ++ spaceStr) := by rw [ih']
        _ = (x ++ spaceStr ++ spaceJoined (y :: ts')) ++ spaceStr := by
            simp [List.append_assoc]
        _ = spaceJoined (x :: y :: ts') ++ spaceStr := by
            simp [spaceJoined, List.intercalate, List.intersperse, List.append_assoc]

theorem processResults_all_ok (wOk : Nat → Bool) (hw : ∀ n, wOk n = true) :
    ∀ (rs : List RecogResult) (st : PumpState), ∃ n, processResults wOk st rs =
      { transcript := st.transcript ++ transcriptOfFinals (resultFinalTexts rs)
        alive := st.alive, cancelled := st.cancelled, writeCount := n } := by
  intro rs
  induction rs with
  | nil =>
    intro st
    exact ⟨st.writeCount, by simp [processResults, resultFinalTexts, transcriptOfFinals]⟩
  | cons r rest ih =>
    intro st
    cases halts : r.alternatives with
    | nil =>
      obtain ⟨n, hn⟩ := ih st
      refine ⟨n, ?_⟩
      simp [processResults, halts, hn, resultFinalTexts, List.filterMap_cons]
    | cons t alt =>
      have hw' := hw st.writeCount
      cases hf : r.isFinal with
      | false =>
        obtain ⟨n, hn⟩ := ih
          { transcript := st.transcript, alive := st.alive
            cancelled := st.cancelled, writeCount := st.writeCount + 1 }
        refine ⟨n, ?_⟩
        simp [processResults, halts, hw', hf, hn, resultFinalTexts, List.filterMap_cons]
      | true =>
        obtain ⟨n, hn⟩ := ih
          { transcript := st.transcript ++ t ++ spaceStr, alive := st.alive
            cancelled := st.cancelled, writeCount := st.writeCount + 1 }
        refine ⟨n, ?_⟩
        have hstep : processResults wOk st (r :: rest)
            = processResults wOk
              { transcript := st.transcript ++ t ++ spaceStr, alive := st.alive
                cancelled := st.cancelled, writeCount := st.writeCount + 1 } rest := by
          simp [processResults, halts, hw', hf]
        rw [hstep, hn]
        simp [resultFinalTexts, List.filterMap_cons, halts, hf, transcriptOfFinals_cons,
          List.append_assoc]

theorem pumpRun_all_ok (wOk : Nat → Bool) (hw : ∀ n, wOk n = true) :
    ∀ (evs : List RecvEvent) (st : PumpState), st.alive = true →
      (∀ ev ∈ evs, noFailedRecreate ev = true) →
      ∃ n, pumpRun wOk st evs =
        { transcript := st.transcript ++ transcriptOfFinals (finalTexts evs)
          alive := true, cancelled := st.cancelled, writeCount := n } := by
  intro evs
  induction evs with
  | nil =>
    intro st ha _
    refine ⟨st.writeCount, ?_⟩
    simp [pumpRun, finalTexts, transcriptOfFinals, ← ha]
  | cons ev evs ih =>
    intro st ha hall
    have hrest : ∀ e ∈ evs, noFailedRecreate e = true :=
      fun e he => hall e (List.mem_cons_of_mem _ he)
    have hstep : pumpRun wOk st (ev :: evs) = pumpRun wOk (pumpStep wOk st ev) evs := by
      simp [pumpRun]
    cases ev with
    | results rs =>
      obtain ⟨m, hm⟩ := processResults_all_ok wOk hw rs st
      have ha' : (processResults wOk st rs).alive = true := by rw [hm]; exact ha
      obtain ⟨n, hn⟩ := ih (processResults wOk st rs) ha' hrest
      refine ⟨n, ?_⟩
      rw [hstep]
      have hps : pumpStep wOk st (RecvEvent.results rs) = processResults wOk st rs := by
        simp [pumpStep, ha]
      rw [hps, hn, hm]
      simp [finalTexts, eventFinalTexts, transcriptOfFinals_append, List.append_assoc]
    | apiError =>
      obtain ⟨n, hn⟩ := ih st ha hrest
      refine ⟨n, ?_⟩
      rw [hstep]
      have hps : pumpStep wOk st RecvEvent.apiError = st := by simp [pumpStep, ha]
      rw [hps, hn]
      simp [finalTexts, eventFinalTexts, transcriptOfFinals]
    | noStream =>
      obtain ⟨n, hn⟩ := ih st ha hrest
      refine ⟨n, ?_⟩
      rw [hstep]
      have hps : pumpStep wOk st RecvEvent.noStream = st := by simp [pumpStep, ha]
      rw [hps, hn]
      simp [finalTexts, eventFinalTexts, transcriptOfFinals]
    | eofRecreate b =>
      have hb : b = true := hall _ (List.mem_cons_self _ _)
      subst hb
      obtain ⟨n, hn⟩ := ih st ha hrest
      refine ⟨n, ?_⟩
      rw [hstep]
      have hps : pumpStep wOk st (RecvEvent.eofRecreate true) = st := by
        simp [pumpStep, ha]
      rw [hps, hn]
      simp [finalTexts, eventFinalTexts, transcriptOfFinals]
    | errRecreate b =>
      have hb : b = true := hall _ (List.mem_cons_self _ _)
      subst hb
      obtain ⟨n, hn⟩ := ih st ha hrest
      refine ⟨n, ?_⟩
      rw [hstep]
      have hps : pumpStep wOk st (RecvEvent.errRecreate true) = st := by
        simp [pumpStep, ha]
      rw [hps, hn]
      simp [finalTexts, eventFinalTexts, transcriptOfFinals]

theorem keywordsGo_skip_all (ws : List Str) :
    ∀ seen dyn adds, (∀ w ∈ ws, trimStr w = [] ∨ lowerStr (trimStr w) ∈ seen) →
      keywordsGo seen dyn adds ws = (dyn, adds) := by
  induction ws with
  | nil => intro seen dyn adds _; rfl
  | cons w rest ih =>
    intro seen dyn adds h
    have hw := h w (List.mem_cons_self _ _)
    have hcond : ¬(trimStr w ≠ [] ∧ lowerStr (trimStr w) ∉ seen) := by
      rcases hw with h1 | h2
      · exact fun hc => hc.1 h1
      · exact fun hc => hc.2 h2
    simp only [keywordsGo, if_neg hcond]
    exact ih seen dyn adds (fun x hx => h x (List.mem_cons_of_mem _ hx))

theorem keywordsGo_closure (ws : List Str) :
    ∀ seen dyn adds, (∀ x, x ∈ seen ↔ x ∈ dyn.map keywordKey) →
      (∀ x ∈ seen, x ∈ (keywordsGo seen dyn adds ws).1.map keywordKey) ∧
        (∀ w ∈ ws, trimStr w = [] ∨
          lowerStr (trimStr w) ∈ (keywordsGo seen dyn adds ws).1.map keywordKey) := by
  induction ws with
  | nil =>
    intro seen dyn adds hinv
    constructor
    · intro x hx
      simpa [keywordsGo] using (hinv x).mp hx
    · intro w hw
      exact absurd hw (List.not_mem_nil w)
  | cons w rest ih =>
    intro seen dyn adds hinv
    by_cases hcond : trimStr w ≠ [] ∧ lowerStr (trimStr w) ∉ seen
    · have hinv' : ∀ x, x ∈ (lowerStr (trimStr w) :: seen)
          ↔ x ∈ (dyn ++ [trimStr w]).map keywordKey := by
        intro x
        simp only [List.mem_cons, List.map_append, List.map_cons, List.map_nil,
          List.mem_append, hinv x]
        rw [keywordKey, trimStr_idem]
        simp [or_comm]
      have hgo : keywordsGo seen dyn adds (w :: rest)
          = keywordsGo (lowerStr (trimStr w) :: seen) (dyn ++ [trimStr w])
              (adds ++ [trimStr w]) rest := by
        simp only [keywordsGo, if_pos hcond]
      obtain ⟨mono, hall⟩ := ih _ _ _ hinv'
      rw [hgo]
      constructor
      · intro x hx
        exact mono x (List.mem_cons_of_mem _ hx)
      · intro w' hw'
        rcases List.mem_cons.mp hw' with rfl | hmem
        · exact Or.inr (mono _ (List.mem_cons_self _ _))
        · exact hall w' hmem
    · have hgo : keywordsGo seen dyn adds (w :: rest) = keywordsGo seen dyn adds rest := by
        simp only [keywordsGo, if_neg hcond]
      obtain ⟨mono, hall⟩ := ih seen dyn adds hinv
      rw [hgo]
      refine ⟨mono, ?_⟩
      intro w' hw'
      rcases List.mem_cons.mp hw' with rfl | hmem
      · rcases not_and_or.mp hcond with h1 | h2
        · exact Or.inl (not_not.mp h1)
        · exact Or.inr (mono _ (not_not.mp h2))
      · exact hall w' hmem

theorem processKeywords_no_new (dyn ws : List Str)
    (h : ∀ w ∈ ws, trimStr w = [] ∨ lowerStr (trimStr w) ∈ dyn.map keywordKey) :
    processKeywords dyn ws = (dyn, []) :=
  keywordsGo_skip_all ws _ _ _ h

theorem processKeywords_closure (dyn ws : List Str) :
    ∀ w ∈ ws, trimStr w = [] ∨
      lowerStr (trimStr w) ∈ (processKeywords dyn ws).1.map keywordKey :=
  (keywordsGo_closure ws (dyn.map keywordKey) dyn [] (fun _ => Iff.rfl)).2

/-! ## Claim theorems -/

/-- C1 counterexample: one final result "hello" is delivered and every
client write succeeds; the accumulated transcript is "hello " (the text
followed by a space), whereas the space-joined concatenation of the
final texts is "hello" — the two differ, so the transcript does not
equal the space-joined concatenation as claimed. -/
theorem c1_counterexample :
    (pumpRun (fun _ => true) pumpInit
        [RecvEvent.results [{ alternatives := ["hello".toList], isFinal := true }]]).transcript
      = "hello ".toList ∧
      spaceJoined (finalTexts
        [RecvEvent.results [{ alternatives := ["hello".toList], isFinal := true }]])
        = "hello".toList ∧
      ("hello ".toList : Str) ≠ "hello".toList := by
  decide

/-- C1 amended: over any receive-loop event sequence in which every
client write succeeds and every inline stream recreation succeeds, the
accumulated transcript equals each delivered final text followed by one
space, concatenated in delivery order — equivalently, the space-joined
concatenation of the final texts with one trailing space when at least
one final result was delivered.  Interim results never change the
transcript (they contribute nothing to `finalTexts`). -/
theorem c1_transcript_accumulation (wOk : Nat → Bool) (evs : List RecvEvent)
    (hw : ∀ n, wOk n = true) (hr : ∀ ev ∈ evs, noFailedRecreate ev = true) :
    (pumpRun wOk pumpInit evs).transcript = transcriptOfFinals (finalTexts evs) ∧
      (finalTexts evs ≠ [] →
        (pumpRun wOk pumpInit evs).transcript = spaceJoined (finalTexts evs) ++ spaceStr) := by
  obtain ⟨n, hn⟩ := pumpRun_all_ok wOk hw evs pumpInit rfl hr
  constructor
  · rw [hn]
    simp [pumpInit]
  · intro hne
    rw [hn]
    simp [pumpInit, transcriptOfFinals_eq_spaceJoined _ hne]

theorem c1_witness :
    (pumpRun (fun _ => true) pumpInit
        [RecvEvent.results [{ alternatives := ["a".toList], isFinal := true },
                            { alternatives := ["x".toList], isFinal := false }],
         RecvEvent.eofRecreate true,
         RecvEvent.results [{ alternatives := ["b".toList], isFinal := true }]]).transcript
      = "a b ".toList := by
  have h := (c1_transcript_accumulation (fun _ => true)
    [RecvEvent.results [{ alternatives := ["a".toList], isFinal := true },
                        { alternatives := ["x".toList], isFinal := false }],
     RecvEvent.eofRecreate true,
     RecvEvent.results [{ alternatives := ["b".toList], isFinal := true }]]
    (fun _ => rfl) (by decide)).1
  rw [h]
  decide

/-- C5: for every `createStream` invocation in which the configuration
handshake `Send` fails, the call returns an error, the current-stream
slot is left empty, exactly one handshake attempt was made (no inline
retry), and the pending buffer is untouched. -/
theorem c5_handshake_failure_leaves_slot_empty (st : SessState) (env : CreateEnv)
    (hc : env.ctxCancelled = false) (hr : env.rpcOk = true)
    (hh : env.handshakeOk = false) :
    (createStream st env).ok = false ∧
      (createStream st env).state.stream = none ∧
      (createStream st env).handshakeAttempts = 1 ∧
      (createStream st env).state.pending = st.pending := by
  simp [createStream, hc, hr, hh]

theorem c5_witness :
    (createStream { stream := some 3, streamAge := 17, pending := [1, 2], statusMsgs := 0 }
        { ctxCancelled := false, rpcOk := true, handshakeOk := false
          flushOk := fun _ => true, newStreamId := 9, statusWriteOk := true }).ok = false ∧
      (createStream { stream := some 3, streamAge := 17, pending := [1, 2], statusMsgs := 0 }
        { ctxCancelled := false, rpcOk := true, handshakeOk := false
          flushOk := fun _ => true, newStreamId := 9, statusWriteOk := true }).state.stream = none ∧
      (createStream { stream := some 3, streamAge := 17, pending := [1, 2], statusMsgs := 0 }
        { ctxCancelled := false, rpcOk := true, handshakeOk := false
          flushOk := fun _ => true, newStreamId := 9, statusWriteOk := true }).handshakeAttempts = 1 ∧
      (createStream { stream := some 3, streamAge := 17, pending := [1, 2], statusMsgs := 0 }
        { ctxCancelled := false, rpcOk := true, handshakeOk := false
          flushOk := fun _ => true, newStreamId := 9, statusWriteOk := true }).state.pending = [1, 2] :=
  c5_handshake_failure_leaves_slot_empty _ _ rfl rfl rfl

/-- C6: for every successful `createStream` invocation, the new stream
becomes current, the age timer is reset, the pending buffer is flushed
FIFO into the new stream (all of it when every chunk sends, the longest
sendable prefix otherwise, while the new stream stays current), the
buffer is cleared, and a "stream_recreated" status message is emitted. -/
theorem c6_create_success (st : SessState) (env : CreateEnv)
    (hc : env.ctxCancelled = false) (hr : env.rpcOk = true)
    (hh : env.handshakeOk = true) :
    (createStream st env).ok = true ∧
      (createStream st env).state.stream = some env.newStreamId ∧
      (createStream st env).state.streamAge = 0 ∧
      (createStream st env).sentToNewStream = st.pending.takeWhile env.flushOk ∧
      (createStream st env).state.pending = [] ∧
      (createStream st env).state.statusMsgs = st.statusMsgs + 1 ∧
      ((∀ c ∈ st.pending, env.flushOk c = true) →
        (createStream st env).sentToNewStream = st.pending) := by
  refine ⟨?_, ?_, ?_, ?_, ?_, ?_, fun hall => ?_⟩ <;>
    simp [createStream, hc, hr, hh]
  exact fun x hx => hall x hx

theorem c6_witness :
    (createStream { stream := some 3, streamAge := 17, pending := [1, 2, 3], statusMsgs := 0 }
        { ctxCancelled := false, rpcOk := true, handshakeOk := true
          flushOk := fun _ => true, newStreamId := 9, statusWriteOk := true }).state.stream = some 9 ∧
      (createStream { stream := some 3, streamAge := 17, pending := [1, 2, 3], statusMsgs := 0 }
        { ctxCancelled := false, rpcOk := true, handshakeOk := true
          flushOk := fun _ => true, newStreamId := 9, statusWriteOk := true }).sentToNewStream
        = [1, 2, 3] := by
  have h := c6_create_success
    { stream := some 3, streamAge := 17, pending := [1, 2, 3], statusMsgs := 0 }
    { ctxCancelled := false, rpcOk := true, handshakeOk := true
      flushOk := fun _ => true, newStreamId := 9, statusWriteOk := true } rfl rfl rfl
  exact ⟨h.2.1, h.2.2.2.2.2.2 (by decide)⟩

/-- C7: one buffering operation never leaves the Pending Audio Buffer
above its capacity of 10 frames; on a full buffer the oldest frame is
evicted and the new frame appended; the newest frame is always the last
element of the resulting buffer. -/
theorem c7_buffer_bound :
    (∀ (p : List Nat) (m : Nat), p.length ≤ maxPendingChunks →
        (bufferChunk p m).length ≤ maxPendingChunks) ∧
      (∀ (p : List Nat) (m : Nat), p.length = maxPendingChunks →
        bufferChunk p m = p.drop 1 ++ [m]) ∧
      (∀ (p : List Nat) (m : Nat), (bufferChunk p m).getLast? = some m) := by
  refine ⟨fun p m hp => ?_, fun p m hp => ?_, fun p m => ?_⟩
  · simp only [bufferChunk]
    split
    all_goals simp only [List.length_drop, List.length_append, List.length_singleton] at *
    all_goals omega
  · have hlen : maxPendingChunks < (p ++ [m]).length := by
      simp [hp]
    simp only [bufferChunk, if_pos hlen]
    cases p with
    | nil => simp [maxPendingChunks] at hp
    | cons a p' => simp
  · simp only [bufferChunk]
    split
    · cases p with
      | nil => simp_all [maxPendingChunks]
      | cons a p' => simp
    · simp

theorem c7_witness :
    (bufferChunk [0, 1, 2, 3, 4, 5, 6, 7, 8, 9] 42).length ≤ maxPendingChunks ∧
      bufferChunk [0, 1, 2, 3, 4, 5, 6, 7, 8, 9] 42 = [1, 2, 3, 4, 5, 6, 7, 8, 9, 42] ∧
      (bufferChunk [0, 1, 2, 3, 4, 5, 6, 7, 8, 9] 42).getLast? = some 42 := by
  refine ⟨c7_buffer_bound.1 _ 42 (by decide), ?_, c7_buffer_bound.2.2 _ 42⟩
  have h := c7_buffer_bound.2.1 [0, 1, 2, 3, 4, 5, 6, 7, 8, 9] 42 (by decide)
  simpa using h

/-- C9: `generateSummary` on an empty full transcript returns the empty
string with no error and never contacts the generation service; the
`end_prompt` task on a transcript that trims to empty makes no summary
update, sends no summary message, and contacts no service. -/
theorem c9_empty_transcript :
    (∀ env : GenEnv,
        (generateSummary [] env).result = Except.ok [] ∧
          (generateSummary [] env).contacted = false) ∧
      (∀ (raw prev : Str) (env : GenEnv) (w c : Bool), trimStr raw = [] →
        runEndPromptTask raw prev env w c =
          { summaryAfter := prev, emitted := false, contacted := false }) := by
  refine ⟨fun env => ⟨rfl, rfl⟩, fun raw prev env w c h => ?_⟩
  simp [runEndPromptTask, h]

theorem c9_witness :
    (generateSummary [] { clientOk := true, outcome := GenOutcome.rpcError }).contacted = false ∧
      runEndPromptTask ("   ".toList) ("prev".toList)
          { clientOk := true, outcome := GenOutcome.content ("s".toList) } true true
        = { summaryAfter := "prev".toList, emitted := false, contacted := false } :=
  ⟨(c9_empty_transcript.1 _).2, c9_empty_transcript.2 _ _ _ _ _ (by decide)⟩

/-- C3 counterexample: an `end_prompt` is in flight (counter = 1) and the
read loop ends with an unexpected close error (close code 1011); the
code proceeds with teardown immediately instead of waiting on the drain
signal/timeout, contradicting the claim that teardown waits whenever the
counter is non-zero. -/
theorem c3_counterexample :
    onReadLoopError (ReadErrorKind.closeError 1011) 1 = TeardownBehavior.immediate ∧
      onReadLoopError (ReadErrorKind.closeError 1011) 1
        ≠ TeardownBehavior.drainWait drainTimeoutSeconds := by
  decide

/-- C3 amended: when the read-loop error is not an unexpected close error
(a clean goaway/abnormal client close, or any non-close transport error)
and the in-flight end-of-session counter is non-zero, teardown waits on
the completion signal with the 35-second drain timeout; when the error is
an unexpected close error, teardown proceeds immediately. -/
theorem c3_drain_wait (e : ReadErrorKind) (n : Nat) :
    (isUnexpectedCloseErr e [closeGoingAway, closeAbnormalClosure] = false → 0 < n →
        onReadLoopError e n = TeardownBehavior.drainWait drainTimeoutSeconds) ∧
      (isUnexpectedCloseErr e [closeGoingAway, closeAbnormalClosure] = true →
        onReadLoopError e n = TeardownBehavior.immediate) := by
  constructor
  · intro h hn
    simp [onReadLoopError, h, hn]
  · intro h
    simp [onReadLoopError, h]

theorem c3_witness :
    onReadLoopError ReadErrorKind.otherError 1 = TeardownBehavior.drainWait drainTimeoutSeconds ∧
      onReadLoopError (ReadErrorKind.closeError 1002) 1 = TeardownBehavior.immediate :=
  ⟨(c3_drain_wait ReadErrorKind.otherError 1).1 rfl (by decide),
    (c3_drain_wait (ReadErrorKind.closeError 1002) 1).2 (by decide)⟩

/-- C2 counterexample: a frame arrives while a stream is current, the
send fails (frame is buffered), and the synchronous `createStream` call
also fails; the read loop then returns, terminating the session and
dropping the client connection — contradicting the claim that an audio
send error (including a subsequent recreation failure) never terminates
the session. -/
theorem c2_counterexample :
    (handleBinaryMessage { stream := some 0, streamAge := 5, pending := [], statusMsgs := 0 } 7
        { sendOk := false
          create := { ctxCancelled := false, rpcOk := false, handshakeOk := true
                      flushOk := fun _ => true, newStreamId := 1, statusWriteOk := true } }).2
      = BinaryOutcome.sessionTerminates ∧
    (handleBinaryMessage { stream := some 0, streamAge := 5, pending := [], statusMsgs := 0 } 7
        { sendOk := false
          create := { ctxCancelled := false, rpcOk := false, handshakeOk := true
                      flushOk := fun _ => true, newStreamId := 1, statusWriteOk := true } }).1.pending
      = [7] := by
  decide

/-- C2 amended: on a send failure the frame is buffered and stream
recreation is invoked synchronously within the same read-loop iteration
(the loop waits for it); if recreation succeeds the session continues,
and if recreation fails the session terminates.  When no stream is
current the frame is only buffered and the session continues; when the
send succeeds nothing else happens. -/
theorem c2_audio_send_policy (st : SessState) (frame : Nat) (env : BinaryEnv) :
    (st.stream = none →
        handleBinaryMessage st frame env
          = (bufferedState st frame, BinaryOutcome.sessionContinues)) ∧
      (∀ s, st.stream = some s → env.sendOk = true →
        handleBinaryMessage st frame env = (st, BinaryOutcome.sessionContinues)) ∧
      (∀ s, st.stream = some s → env.sendOk = false →
        (createStream (bufferedState st frame) env.create).ok = true →
        handleBinaryMessage st frame env
          = ((createStream (bufferedState st frame) env.create).state,
              BinaryOutcome.sessionContinues)) ∧
      (∀ s, st.stream = some s → env.sendOk = false →
        (createStream (bufferedState st frame) env.create).ok = false →
        handleBinaryMessage st frame env
          = ((createStream (bufferedState st frame) env.create).state,
              BinaryOutcome.sessionTerminates)) := by
  refine ⟨fun h => ?_, fun s h hs => ?_, fun s h hs hok => ?_, fun s h hs hok => ?_⟩
  · simp [handleBinaryMessage, h]
  · simp [handleBinaryMessage, h, hs]
  · simp [handleBinaryMessage, h, hs, hok]
  · simp [handleBinaryMessage, h, hs, hok]

theorem c2_witness :
    handleBinaryMessage { stream := some 0, streamAge := 5, pending := [2], statusMsgs := 0 } 7
        { sendOk := false
          create := { ctxCancelled := false, rpcOk := true, handshakeOk := true
                      flushOk := fun _ => true, newStreamId := 1, statusWriteOk := true } }
      = ({ stream := some 1, streamAge := 0, pending := [], statusMsgs := 1 },
          BinaryOutcome.sessionContinues) ∧
    handleBinaryMessage { stream := none, streamAge := 5, pending := [], statusMsgs := 0 } 3
        { sendOk := true
          create := { ctxCancelled := false, rpcOk := true, handshakeOk := true
                      flushOk := fun _ => true, newStreamId := 1, statusWriteOk := true } }
      = ({ stream := none, streamAge := 5, pending := [3], statusMsgs := 0 },
          BinaryOutcome.sessionContinues) := by
  constructor
  · have h := (c2_audio_send_policy
      { stream := some 0, streamAge := 5, pending := [2], statusMsgs := 0 } 7
      { sendOk := false
        create := { ctxCancelled := false, rpcOk := true, handshakeOk := true
                    flushOk := fun _ => true, newStreamId := 1, statusWriteOk := true } }).2.2.1
      0 rfl rfl (by decide)
    simpa using h
  · have h := (c2_audio_send_policy
      { stream := none, streamAge := 5, pending := [], statusMsgs := 0 } 3
      { sendOk := true
        create := { ctxCancelled := false, rpcOk := true, handshakeOk := true
                    flushOk := fun _ => true, newStreamId := 1, statusWriteOk := true } }).1 rfl
    simpa [bufferedState, bufferChunk] using h

/-- C4 counterexample: a transcription write to the client fails inside
the receive goroutine; the goroutine returns (`alive = false`) but the
session context is not cancelled (`cancelled = false`), so the failure
does not trigger session shutdown as the claim states. -/
theorem c4_counterexample :
    (processResults (fun _ => false) pumpInit
        [{ alternatives := ["hi".toList], isFinal := true }]).alive = false ∧
      (processResults (fun _ => false) pumpInit
        [{ alternatives := ["hi".toList], isFinal := true }]).cancelled = false := by
  decide

/-- C4 amended: a failed transcription write makes the receive goroutine
return at once (no further results processed, transcript unchanged)
without cancelling the session context; a failed summary write leaves
the summary task's outcome and the session context unchanged; the
"stream_recreated" status write outcome is never consulted by
`createStream`. -/
theorem c4_write_error_policy :
    (∀ (wOk : Nat → Bool) (st : PumpState) (r : RecogResult) (rest : List RecogResult)
        (t : Str) (alt : List Str), r.alternatives = t :: alt → wOk st.writeCount = false →
        processResults wOk st (r :: rest)
          = { transcript := st.transcript, alive := false
              cancelled := st.cancelled, writeCount := st.writeCount + 1 }) ∧
      (∀ (raw prev : Str) (env : GenEnv) (w c : Bool),
        (runIncrementalSummary raw prev env w c).cancelledAfter = c) ∧
      (∀ (st : SessState) (env : CreateEnv) (b : Bool),
        createStream st { env with statusWriteOk := b } = createStream st env) := by
  refine ⟨fun wOk st r rest t alt halts hw => ?_, fun raw prev env w c => ?_,
    fun st env b => ?_⟩
  · simp [processResults, halts, hw]
  · simp only [runIncrementalSummary]
    split
    · rfl
    · split <;> rfl
  · simp [createStream]

theorem c4_witness :
    processResults (fun _ => false)
        { transcript := "x ".toList, alive := true, cancelled := false, writeCount := 4 }
        [{ alternatives := ["hi".toList], isFinal := true },
         { alternatives := ["more".toList], isFinal := true }]
      = { transcript := "x ".toList, alive := false, cancelled := false, writeCount := 5 } ∧
      (runIncrementalSummary ("t".toList) [] { clientOk := true, outcome := GenOutcome.rpcError }
          false false).cancelledAfter = false :=
  ⟨c4_write_error_policy.1 _ _ _ _ ("hi".toList) [] rfl rfl,
    c4_write_error_policy.2.1 _ _ _ _ _⟩

/-- C10: the audio-format mapping is total.  The five supported format
strings map case-insensitively to their encodings; an exact enum name
(outside those five aliases) maps through the value table; anything else
defaults to LINEAR16; and the result is always a valid encoding value,
so no format string ever rejects a session. -/
theorem c10_encoding_total :
    (∀ s : Str, lowerStr s = "linear16".toList → mapAudioFormat s = encLINEAR16) ∧
      (∀ s : Str, lowerStr s = "ogg_opus".toList → mapAudioFormat s = encOGG_OPUS) ∧
      (∀ s : Str, lowerStr s = "webm_opus".toList → mapAudioFormat s = encWEBM_OPUS) ∧
      (∀ s : Str, lowerStr s = "flac".toList → mapAudioFormat s = encFLAC) ∧
      (∀ s : Str, lowerStr s = "mulaw".toList → mapAudioFormat s = encMULAW) ∧
      (∀ (s : Str) (v : Nat), lowerStr s ∉ lowerFormatKeys →
        lookupEncodingValue s = some v → mapAudioFormat s = v) ∧
      (∀ s : Str, lowerStr s ∉ lowerFormatKeys →
        lookupEncodingValue s = none → mapAudioFormat s = encLINEAR16) ∧
      (∀ s : Str, mapAudioFormat s ∈ audioEncodingValueTable.map Prod.snd) := by
  refine ⟨fun s h => ?_, fun s h => ?_, fun s h => ?_, fun s h => ?_, fun s h => ?_,
    fun s v h5 hv => ?_, fun s h5 hn => ?_, fun s => ?_⟩
  · simp [mapAudioFormat, h]
  · simp [mapAudioFormat, h]
  · simp [mapAudioFormat, h]
  · simp [mapAudioFormat, h]
  · simp [mapAudioFormat, h]
  · simp only [lowerFormatKeys, List.mem_cons, List.mem_singleton, not_or] at h5
    obtain ⟨h1, h2, h3, h4, h6⟩ := h5
    simp only [mapAudioFormat]
    rw [if_neg h1, if_neg h2, if_neg h3, if_neg h4, if_neg (by simpa using h6), hv]
  · simp only [lowerFormatKeys, List.mem_cons, List.mem_singleton, not_or] at h5
    obtain ⟨h1, h2, h3, h4, h6⟩ := h5
    simp only [mapAudioFormat]
    rw [if_neg h1, if_neg h2, if_neg h3, if_neg h4, if_neg (by simpa using h6), hn]
  · simp only [mapAudioFormat]
    split
    · decide
    split
    · decide
    split
    · decide
    split
    · decide
    split
    · decide
    cases hlu : lookupEncodingValue s with
    | none =>
      simp only [hlu]
      decide
    | some v =>
      simp only [hlu]
      obtain ⟨p, hp, hpv⟩ := Option.map_eq_some'.mp hlu
      have hmem := List.mem_of_find?_eq_some hp
      exact hpv ▸ List.mem_map_of_mem Prod.snd hmem

theorem c10_witness :
    mapAudioFormat ("Linear16".toList) = encLINEAR16 ∧
      mapAudioFormat ("OGG_opus".toList) = encOGG_OPUS ∧
      mapAudioFormat ("AMR".toList) = encAMR ∧
      mapAudioFormat ("mp3".toList) = encLINEAR16 :=
  ⟨c10_encoding_total.1 _ (by decide),
    c10_encoding_total.2.1 _ (by decide),
    c10_encoding_total.2.2.2.2.2.1 _ encAMR (by decide) (by decide),
    c10_encoding_total.2.2.2.2.2.2.1 _ (by decide) (by decide)⟩

/-- C8: a `keywords` message whose every word is empty after trimming or
already present (case-insensitively, after trimming) in the dynamic
keyword list leaves the list unchanged and triggers no stream
recreation; and processing any keywords message a second time against
the list produced by the first processing adds nothing and triggers no
second recreation, so the same message recreates the stream at most
once. -/
theorem c8_hint_idempotence (dyn ws : List Str) :
    ((∀ w ∈ ws, trimStr w = [] ∨ lowerStr (trimStr w) ∈ dyn.map keywordKey) →
        processKeywords dyn ws = (dyn, []) ∧ keywordsTriggerRecreate dyn ws = false) ∧
      (processKeywords (processKeywords dyn ws).1 ws = ((processKeywords dyn ws).1, []) ∧
        keywordsTriggerRecreate (processKeywords dyn ws).1 ws = false) := by
  constructor
  · intro h
    have h0 := processKeywords_no_new dyn ws h
    exact ⟨h0, by simp [keywordsTriggerRecreate, h0]⟩
  · have h := processKeywords_closure dyn ws
    have h2 := processKeywords_no_new (processKeywords dyn ws).1 ws h
    exact ⟨h2, by simp [keywordsTriggerRecreate, h2]⟩

theorem c8_witness :
    processKeywords ["Kubernetes".toList] ["  kubernetes ".toList, "KUBERNETES".toList]
      = (["Kubernetes".toList], []) ∧
      keywordsTriggerRecreate ["Kubernetes".toList]
        ["  kubernetes ".toList, "KUBERNETES".toList] = false :=
  (c8_hint_idempotence ["Kubernetes".toList]
    ["  kubernetes ".toList, "KUBERNETES".toList]).1 (by decide)

end LiveTrans
